import Mathlib

/-!
# Viral Sandbox Gene Composition Engine — verification development

Shallow embedding of the gene install/remove economy and blueprint
composition engine of the Viral Sandbox game.  The view-model layer
(`BuildViewModel` in `src/ui_builder.py`) and the new-game seeding
(`VirusSandboxApplication.start_new_game_with_database` in `src/main.py`)
are translated from source; the `VirusBuilder`, `GameState` and database
helpers live in modules not shipped under `src/` and are modelled from the
specification (§4.1–4.3), as marked on each definition.

Terminology: the spec calls EP "points", `GameState` the "Ledger", the
builder's ordered installed-gene list the "InstalledSet" and the gene
database the "Database".  Python integers are embedded as `Int`, rule
probabilities as `Rat`, gene/entity names as `String`.
-/

namespace ViralSandbox

/-- A probabilistic transition rule of the composed blueprint (spec §3
`TransitionRule`): name (unique within a blueprint), probability, ordered
input and output `(entity, quantity)` pairs, interferon yield. -/
structure TransitionRule where
  name : String
  probability : Rat
  inputs : List (String × Int)
  outputs : List (String × Int)
  interferon : Int
deriving DecidableEq, Repr

/-- A gene effect (spec §3 `GeneEffect`): tagged variant, either adding a
fresh transition rule or modifying an already-added one (probability delta
and added interferon yield). -/
inductive GeneEffect where
  | addTransition (rule : TransitionRule)
  | modifyTransition (ruleName : String) (probDelta : Rat) (interferonDelta : Int)
deriving DecidableEq, Repr

/-- A gene definition (spec §3 `GeneDefinition`): name, install cost,
remove cost, polymerase flag, prerequisite gene names, ordered effects. -/
structure Gene where
  name : String
  cost : Int
  removeCost : Int
  isPolymerase : Bool
  requires : List String
  effects : List GeneEffect
deriving DecidableEq, Repr

/-- The read-only gene database, a sequence of gene definitions keyed by
name (spec §4.1). -/
abbrev Database := List Gene

/-- Modelled from the spec: §4.1 `lookup_gene(name) -> GeneDefinition |
not_found` of the `data_models` module, which is not under `src/`.  First
definition whose name matches, `none` when absent. -/
def lookupGene (db : Database) (n : String) : Option Gene :=
  db.find? (fun g => g.name == n)

/-- Prerequisite list of a gene by name; `[]` for an unknown gene. -/
def requiresOf (db : Database) (n : String) : List String :=
  ((lookupGene db n).map Gene.requires).getD []

/-- Modelled from the spec: `GameState.get_gene_cost` (module `game_state`,
not under `src/`) returns the gene's install cost from the Database; the
UI (src/ui_builder.py line 238) defaults an absent cost to 0. -/
def geneCost (db : Database) (n : String) : Int :=
  ((lookupGene db n).map Gene.cost).getD 0

/-- Modelled from the spec: `GameState.get_remove_cost` (module
`game_state`, not under `src/`) returns the gene's remove cost from the
Database (spec §3: remove cost is a `GeneDefinition` attribute). -/
def removeCostOf (db : Database) (n : String) : Int :=
  ((lookupGene db n).map Gene.removeCost).getD 0

/-- Polymerase flag of a gene by name; `false` for an unknown gene. -/
def isPolymeraseGene (db : Database) (n : String) : Bool :=
  ((lookupGene db n).map Gene.isPolymerase).getD false

/-- The mutable session state seen by the view model: the Ledger's point
balance (`GameState.ep`), deck, starter selection and count, together with
the Composition Engine's ordered InstalledSet (`VirusBuilder.selected_genes`
projected to names, spec §3 InstalledSet). -/
structure EngineState where
  ep : Int
  installed : List String
  deck : List String
  starter : String
  starterCount : Int
deriving DecidableEq, Repr

/-- Modelled from the spec: `VirusBuilder.can_add_gene` (module
`simulation`, not under `src/`).  Spec §4.2 `can_install` legality checks
in their fixed order — `unknown_gene`, `already_installed`,
`missing_prerequisites`, `polymerase_limit` — excluding the balance check,
which the visible caller `BuildViewModel.can_install_gene` performs
itself. -/
def canAddGene (db : Database) (installed : List String) (g : String) : Bool × String :=
  match lookupGene db g with
  | none => (false, "unknown_gene")
  | some gene =>
    if g ∈ installed then (false, "already_installed")
    else if ∀ r ∈ gene.requires, r ∈ installed then
      if gene.isPolymerase ∧ ∃ h ∈ installed, isPolymeraseGene db h = true then
        (false, "polymerase_limit")
      else (true, "")
    else (false, "missing_prerequisites")

/-- `BuildViewModel.can_install_gene` (src/ui_builder.py lines 110–126):
first the already-installed check against the builder's gene list, then
`VirusBuilder.can_add_gene`, then the EP/cost check.  The code's reason
string `insufficient_ep` is what the spec calls `insufficient_points`. -/
def canInstallGene (db : Database) (st : EngineState) (g : String) : Bool × String :=
  if g ∈ st.installed then (false, "already_installed")
  else
    match canAddGene db st.installed g with
    | (false, reason) => (false, reason)
    | (true, _) =>
      if st.ep < geneCost db g then (false, "insufficient_ep")
      else (true, "")

/-- `BuildViewModel.install_gene` (src/ui_builder.py lines 128–146): checks
`can_install_gene`, and only then deducts the install cost from the EP
balance and adds the gene to the builder; `VirusBuilder.add_gene` is not
under `src/` and is modelled from spec §4.2 `install`, which appends the
gene name to the end of the InstalledSet. -/
def installGene (db : Database) (st : EngineState) (g : String) : Bool × EngineState :=
  if (canInstallGene db st g).1 then
    (true, { st with ep := st.ep - geneCost db g, installed := st.installed ++ [g] })
  else (false, st)

/-- Modelled from the spec: one widening step of the transitive dependent
closure computed by `VirusBuilder.remove_gene` (module `simulation`, not
under `src/`; spec §4.2 `remove`): add every installed gene, not already in
the set, one of whose prerequisites is in the set. -/
def depStep (db : Database) (installed : List String) (D : List String) : List String :=
  D ++ installed.filter (fun h => decide (h ∉ D ∧ ∃ r ∈ requiresOf db h, r ∈ D))

/-- Modelled from the spec: the transitive dependent closure of a gene —
every currently-installed gene whose `requires` directly or indirectly
includes it, together with the gene itself (spec §4.2 `remove`).  Iterating
the widening step `installed.length` times reaches the fixpoint. -/
def depClosure (db : Database) (installed : List String) (g : String) : List String :=
  (depStep db installed)^[installed.length] [g]

/-- `BuildViewModel.remove_gene` (src/ui_builder.py lines 148–169): fails
when the gene is not installed or the balance is below its remove cost;
otherwise deducts only that gene's remove cost and removes the gene from
the builder.  `VirusBuilder.remove_gene` is not under `src/` and is
modelled from spec §4.2 `remove`: the whole transitive dependent closure
leaves the InstalledSet (removal expressed as an order-preserving filter),
with no charge for the dependents. -/
def removeGene (db : Database) (st : EngineState) (g : String) : Bool × EngineState :=
  if g ∉ st.installed then (false, st)
  else if st.ep < removeCostOf db g then (false, st)
  else
    (true, { st with
      ep := st.ep - removeCostOf db g,
      installed := st.installed.filter
        (fun x => decide (x ∉ depClosure db st.installed g)) })

/-- A view-model mutation request: install or remove a gene by name. -/
inductive Op where
  | install (g : String)
  | remove (g : String)
deriving DecidableEq, Repr

/-- The state reached after one install or remove request (result flag
discarded). -/
def applyOp (db : Database) (st : EngineState) : Op → EngineState
  | .install g => (installGene db st g).2
  | .remove g => (removeGene db st g).2

/-- The state reached after a sequence of install/remove requests. -/
def runOps (db : Database) (st : EngineState) (ops : List Op) : EngineState :=
  ops.foldl (applyOp db) st

/-- The composed blueprint (spec §3 `Blueprint`): starting entities, the
installed-gene summary, the transition rules after effect replay, and the
set of possible entities. -/
structure Blueprint where
  startingEntities : List (String × Int)
  genes : List String
  transitionRules : List TransitionRule
  possibleEntities : List String
deriving DecidableEq, Repr

/-- Modelled from the spec: application of one gene effect to the rule
list accumulated so far in a composition pass (spec §4.2
`compose_blueprint`): `AddTransition` appends the rule, failing with
`duplicate_rule_name` on a name collision; `ModifyTransition` adjusts the
named already-added rule in place, failing with `unknown_rule_reference`
when the target has not been added earlier in replay order. -/
def applyEffect (rules : List TransitionRule) : GeneEffect → Except String (List TransitionRule)
  | .addTransition r =>
    if ∃ q ∈ rules, q.name = r.name then .error "duplicate_rule_name"
    else .ok (rules ++ [r])
  | .modifyTransition n dp di =>
    if ∃ q ∈ rules, q.name = n then
      .ok (rules.map (fun q =>
        if q.name = n then
          { q with probability := q.probability + dp, interferon := q.interferon + di }
        else q))
    else .error "unknown_rule_reference"

/-- Sequential application of a gene's effect list in declaration order. -/
def applyEffects (rules : List TransitionRule) : List GeneEffect → Except String (List TransitionRule)
  | [] => .ok rules
  | e :: es =>
    match applyEffect rules e with
    | .error m => .error m
    | .ok rules2 => applyEffects rules2 es

/-- Effect list of a gene by name; `[]` for an unknown gene (invariant 1
rules installed unknown genes out). -/
def effectsOf (db : Database) (n : String) : List GeneEffect :=
  ((lookupGene db n).map Gene.effects).getD []

/-- Replay of the installed genes' effects in insertion order (spec §4.2
`compose_blueprint`). -/
def replayGenes (db : Database) (rules : List TransitionRule) : List String → Except String (List TransitionRule)
  | [] => .ok rules
  | g :: gs =>
    match applyEffects rules (effectsOf db g) with
    | .error m => .error m
    | .ok rules2 => replayGenes db rules2 gs

/-- Entity names appearing among a rule's inputs and outputs. -/
def ruleEntities (r : TransitionRule) : List String :=
  r.inputs.map Prod.fst ++ r.outputs.map Prod.fst

/-- Modelled from the spec: `VirusBuilder.get_virus_capabilities` (module
`simulation`, not under `src/`), spec §4.2 `compose_blueprint`: a pure
function of the InstalledSet order, the Database and the Ledger's starter
selection and count.  `possible_entities` is the starter entity together
with every entity named in any rule's inputs or outputs. -/
def composeBlueprint (db : Database) (installed : List String) (starter : String)
    (count : Int) : Except String Blueprint :=
  match replayGenes db [] installed with
  | .error m => .error m
  | .ok rules =>
    .ok { startingEntities := [(starter, count)]
          genes := installed
          transitionRules := rules
          possibleEntities := (starter :: (rules.map ruleEntities).flatten).dedup }

/-- `BuildViewModel.get_virus_blueprint` (src/ui_builder.py lines 179–181):
delegates to the builder's capability composition over the current
state. -/
def getVirusBlueprint (db : Database) (st : EngineState) : Except String Blueprint :=
  composeBlueprint db st.installed st.starter st.starterCount

/-- One step of the `BuildViewModel.__init__` deck loop
(src/ui_builder.py lines 73–76): add the gene to the builder exactly when
`VirusBuilder.can_add_gene` allows it; the EP balance is never touched. -/
def initStep (db : Database) (s : EngineState) (g : String) : EngineState :=
  if (canAddGene db s.installed g).1 then { s with installed := s.installed ++ [g] }
  else s

/-- The deck loop of `BuildViewModel.__init__` run over a gene-name list. -/
def processDeck (db : Database) (s : EngineState) (l : List String) : EngineState :=
  l.foldl (initStep db) s

/-- `BuildViewModel.__init__` (src/ui_builder.py lines 66–76): a fresh
`VirusBuilder` (empty InstalledSet), then every deck gene that passes
`can_add_gene` at its turn is added, free of charge. -/
def initViewModel (db : Database) (st : EngineState) : EngineState :=
  processDeck db { st with installed := [] } st.deck

/-- Gene names of the database in declaration order
(`GeneDatabaseManager.get_all_genes` projected to names; spec §4.1
`all_genes()` is a stable sequence used for deck seeding). -/
def geneNames (db : Database) : List String := db.map Gene.name

/-- `VirusSandboxApplication.start_new_game_with_database`
(src/main.py lines 88–103): sets EP to 100 and seeds the deck with
`random.sample(all_genes, min(10, len(all_genes)))`.  The random draw is
embedded as an explicit index list `pick` into the database's gene
sequence; `random.sample`'s contract (a sample of exactly that size drawn
at distinct positions) becomes hypotheses of the theorems.  Modelled from
the spec: `GameState.reset_for_new_game` and
`reset_starting_entity_count` (module `game_state`, not under `src/`) —
the spec's Ledger (§4.3) has no reset operation touching the point
balance, so they leave the freshly assigned balance of 100 in place and
set the starter count (the UI header defaults to ×10). -/
def startNewGame (db : Database) (pick : List Nat) : EngineState :=
  { ep := 100
    installed := []
    deck := pick.map (fun i => (geneNames db).getD i "")
    starter := ""
    starterCount := 10 }

/-! ## Helper lemmas -/

/-- A positive legality verdict implies the balance covers the install
cost (the verdict's last check). -/
theorem canInstall_cost_le (db : Database) (st : EngineState) (g : String)
    (h : (canInstallGene db st g).1 = true) : geneCost db g ≤ st.ep := by
  by_cases hmem : g ∈ st.installed
  · simp [canInstallGene, hmem] at h
  · rcases hca : canAddGene db st.installed g with ⟨b, r⟩
    cases b
    · simp [canInstallGene, hmem, hca] at h
    · by_cases hep : st.ep < geneCost db g
      · simp [canInstallGene, hmem, hca, hep] at h
      · omega

/-- A positive legality verdict implies the gene is not yet installed
(the verdict's first check). -/
theorem canInstall_not_mem (db : Database) (st : EngineState) (g : String)
    (h : (canInstallGene db st g).1 = true) : g ∉ st.installed := by
  intro hmem
  simp [canInstallGene, hmem] at h

/-- Each install/remove step keeps a non-negative balance
non-negative. -/
theorem applyOp_ep_nonneg (db : Database) (st : EngineState) (o : Op)
    (h0 : 0 ≤ st.ep) : 0 ≤ (applyOp db st o).ep := by
  cases o with
  | install g =>
    by_cases h : (canInstallGene db st g).1 = true
    · have hc := canInstall_cost_le db st g h
      simp only [applyOp, installGene, h, if_true]
      omega
    · simp [applyOp, installGene, h, h0]
  | remove g =>
    by_cases h1 : g ∈ st.installed
    · by_cases h2 : st.ep < removeCostOf db g
      · simp [applyOp, removeGene, h1, h2, h0]
      · simp only [applyOp, removeGene, h1, not_true_eq_false, if_false, h2, if_true]
        simp
        omega
    · simp [applyOp, removeGene, h1, h0]

/-! ## Concrete fixtures for witnesses -/

/-- Fixture gene with no prerequisites (install cost 15, remove cost 10). -/
def geneAlpha : Gene := ⟨"alpha", 15, 10, false, [], []⟩

/-- Fixture gene depending on `alpha` (install cost 5, remove cost 2). -/
def geneBeta : Gene := ⟨"beta", 5, 2, false, ["alpha"], []⟩

/-- Fixture polymerase gene. -/
def genePol : Gene := ⟨"pol", 7, 3, true, [], []⟩

/-- Fixture gene with a large install cost (50). -/
def geneRich : Gene := ⟨"rich", 50, 1, false, [], []⟩

/-- Fixture database. -/
def sampleDb : Database := [geneAlpha, geneBeta, genePol, geneRich]

/-- Fixture fresh state: 100 EP, nothing installed. -/
def sampleSt : EngineState := ⟨100, [], ["alpha", "beta"], "VirionX", 10⟩

/-- Fixture state with `alpha` and `beta` installed and 20 EP. -/
def sampleStAB : EngineState := ⟨20, ["alpha", "beta"], [], "VirionX", 10⟩

/-- Fixture state with `alpha` installed and 100 EP. -/
def sampleStA : EngineState := ⟨100, ["alpha"], [], "VirionX", 10⟩

/-- Fixture broke state: 0 EP, `rich` in the deck. -/
def poorSt : EngineState := ⟨0, [], ["rich"], "VirionX", 10⟩

/-! ## Claim theorems -/

/-- Claim C1: every install or remove request, in any state, either fully
succeeds — returning success with the balance deduction and the
InstalledSet mutation both applied — or fully fails, returning failure
with the balance and the InstalledSet exactly as they were; no partial
application is observable. -/
theorem install_remove_atomic (db : Database) (st : EngineState) (g : String) :
    (((installGene db st g).1 = true ∧
        (installGene db st g).2 =
          { st with ep := st.ep - geneCost db g, installed := st.installed ++ [g] }) ∨
      ((installGene db st g).1 = false ∧ (installGene db st g).2 = st)) ∧
    (((removeGene db st g).1 = true ∧
        (removeGene db st g).2 =
          { st with ep := st.ep - removeCostOf db g, installed := st.installed.filter (fun x => decide (x ∉ depClosure db st.installed g)) }) ∨
      ((removeGene db st g).1 = false ∧ (removeGene db st g).2 = st)) := by
  constructor
  · by_cases h : (canInstallGene db st g).1 = true
    · left; simp [installGene, h]
    · right; simp [installGene, h]
  · by_cases h1 : g ∈ st.installed
    · by_cases h2 : st.ep < removeCostOf db g
      · right; simp [removeGene, h1, h2]
      · left; simp [removeGene, h1, h2]
    · right; simp [removeGene, h1]

/-- Claim C3: when `can_install_gene` holds, installing deducts exactly
the gene's install cost from the balance and appends the gene name to the
end of the InstalledSet, keeping the previously installed genes and their
order. -/
theorem install_success_effect (db : Database) (st : EngineState) (g : String)
    (h : (canInstallGene db st g).1 = true) :
    installGene db st g =
      (true, { st with ep := st.ep - geneCost db g, installed := st.installed ++ [g] }) := by
  simp [installGene, h]

/-- Witness for C3: installing `alpha` into the fresh fixture state. -/
theorem install_success_effect_witness :
    installGene sampleDb sampleSt "alpha" =
      (true, { sampleSt with ep := sampleSt.ep - geneCost sampleDb "alpha", installed := sampleSt.installed ++ ["alpha"] }) :=
  install_success_effect sampleDb sampleSt "alpha" (by decide)

/-- Claim C4: for an installed gene, removal charges only the requested
gene's remove cost — the deduction is that cost alone, however many
transitively dependent genes leave the InstalledSet with it — and when
that cost exceeds the balance the whole operation is rejected with the
state unchanged. -/
theorem remove_charges_only_requested (db : Database) (st : EngineState) (g : String)
    (hin : g ∈ st.installed) :
    (st.ep < removeCostOf db g → removeGene db st g = (false, st)) ∧
    (removeCostOf db g ≤ st.ep →
      removeGene db st g =
        (true, { st with ep := st.ep - removeCostOf db g, installed := st.installed.filter (fun x => decide (x ∉ depClosure db st.installed g)) })) := by
  constructor
  · intro hep; simp [removeGene, hin, hep]
  · intro hep; simp [removeGene, hin, not_lt.mpr hep]

/-- Witness for C4: removing `alpha` while dependent `beta` is installed
removes both but deducts only `alpha`'s remove cost of 10 (20 → 10 EP). -/
theorem remove_charges_only_requested_witness :
    removeGene sampleDb sampleStAB "alpha" =
      (true, { sampleStAB with ep := sampleStAB.ep - removeCostOf sampleDb "alpha", installed := sampleStAB.installed.filter (fun x => decide (x ∉ depClosure sampleDb sampleStAB.installed "alpha")) }) :=
  (remove_charges_only_requested sampleDb sampleStAB "alpha" (by decide)).2 (by decide)

/-- Claim C6: a gene passing every earlier legality check but costing more
than the balance is rejected with reason `insufficient_ep` (the spec's
`insufficient_points`), the balance unchanged and the gene absent from the
InstalledSet afterward. -/
theorem insufficient_points_rejects (db : Database) (st : EngineState) (g : String)
    (hca : (canAddGene db st.installed g).1 = true)
    (hmem : g ∉ st.installed)
    (hep : st.ep < geneCost db g) :
    canInstallGene db st g = (false, "insufficient_ep") ∧
    installGene db st g = (false, st) ∧ g ∉ st.installed := by
  have h1 : canInstallGene db st g = (false, "insufficient_ep") := by
    rcases hc : canAddGene db st.installed g with ⟨b, r⟩
    rw [hc] at hca
    cases b
    · simp at hca
    · simp [canInstallGene, hmem, hc, hep]
  refine ⟨h1, ?_, hmem⟩
  simp [installGene, h1]

/-- Witness for C6: `rich` (cost 50) against 20 EP with `alpha`, `beta`
installed. -/
theorem insufficient_points_rejects_witness :
    canInstallGene sampleDb sampleStAB "rich" = (false, "insufficient_ep") ∧
    installGene sampleDb sampleStAB "rich" = (false, sampleStAB) ∧
    "rich" ∉ sampleStAB.installed :=
  insufficient_points_rejects sampleDb sampleStAB "rich" (by decide) (by decide) (by decide)

/-- Claim C2: from a non-negative balance, under non-negative install and
remove costs, every sequence of install/remove requests keeps the Ledger
balance non-negative (each operation checks affordability before
deducting). -/
theorem ep_never_negative (db : Database) (st : EngineState) (ops : List Op)
    (_hcosts : ∀ gn ∈ db, 0 ≤ gn.cost ∧ 0 ≤ gn.removeCost)
    (h0 : 0 ≤ st.ep) : 0 ≤ (runOps db st ops).ep := by
  induction ops generalizing st with
  | nil => exact h0
  | cons o os ih => exact ih (applyOp db st o) (applyOp_ep_nonneg db st o h0)

/-- Witness for C2: a concrete operation sequence, including a rejected
overdraw, from the fresh fixture state. -/
theorem ep_never_negative_witness :
    (∀ gn ∈ sampleDb, 0 ≤ gn.cost ∧ 0 ≤ gn.removeCost) ∧ 0 ≤ sampleSt.ep ∧
    0 ≤ (runOps sampleDb sampleSt
      [.install "alpha", .install "beta", .remove "alpha", .install "rich"]).ep :=
  ⟨by decide, by decide,
    ep_never_negative sampleDb sampleSt
      [.install "alpha", .install "beta", .remove "alpha", .install "rich"]
      (by decide) (by decide)⟩

/-- The legality check written following the spec's words (§4.2
`can_install`): the fixed order `unknown_gene`, `already_installed`,
`missing_prerequisites`, `polymerase_limit`, insufficient points, with the
first failing check deciding the reason.  Stated for comparison with the
source-derived `canInstallGene`. -/
def canInstallSpecOrder (db : Database) (st : EngineState) (g : String) : Bool × String :=
  match lookupGene db g with
  | none => (false, "unknown_gene")
  | some gene =>
    if g ∈ st.installed then (false, "already_installed")
    else if ∀ r ∈ gene.requires, r ∈ st.installed then
      if gene.isPolymerase ∧ ∃ h ∈ st.installed, isPolymeraseGene db h = true then
        (false, "polymerase_limit")
      else if st.ep < geneCost db g then (false, "insufficient_ep")
      else (true, "")
    else (false, "missing_prerequisites")

/-- Claim C5: under invariant 1 (every installed name exists in the
Database — the only states the engine constructs), `can_install_gene`
returns exactly the verdict of the spec's fixed check order
`unknown_gene`, `already_installed`, `missing_prerequisites`,
`polymerase_limit`, `insufficient_ep`, first failing check wins.  (The
source checks `already_installed` before `unknown_gene`, but on states
satisfying invariant 1 the two orders agree.) -/
theorem can_install_first_failing_check (db : Database) (st : EngineState) (g : String)
    (hinv : ∀ n ∈ st.installed, (lookupGene db n).isSome = true) :
    canInstallGene db st g = canInstallSpecOrder db st g := by
  by_cases hmem : g ∈ st.installed
  · obtain ⟨gene, hg⟩ := Option.isSome_iff_exists.mp (hinv g hmem)
    simp [canInstallGene, canInstallSpecOrder, hmem, hg]
  · rcases hl : lookupGene db g with _ | gene
    · simp [canInstallGene, canInstallSpecOrder, canAddGene, hmem, hl]
    · by_cases hreq : ∀ r ∈ gene.requires, r ∈ st.installed
      · by_cases hpoly : gene.isPolymerase = true ∧ ∃ h ∈ st.installed, isPolymeraseGene db h = true
        · simp [canInstallGene, canInstallSpecOrder, canAddGene, hmem, hl, hpoly]
          rw [if_pos hreq]
        · by_cases hep : st.ep < geneCost db g
          · simp [canInstallGene, canInstallSpecOrder, canAddGene, hmem, hl, hpoly, hep]
            rw [if_pos hreq, if_pos hreq]
          · simp [canInstallGene, canInstallSpecOrder, canAddGene, hmem, hl, hpoly, hep]
            rw [if_pos hreq]
      · simp [canInstallGene, canInstallSpecOrder, canAddGene, hmem, hl, hreq]

/-- Witness for C5: the source check and the spec-order check agree on a
polymerase install attempt in the populated fixture state. -/
theorem can_install_first_failing_check_witness :
    canInstallGene sampleDb sampleStAB "pol" = canInstallSpecOrder sampleDb sampleStAB "pol" :=
  can_install_first_failing_check sampleDb sampleStAB "pol" (by decide)

/-- When no installed gene other than the target names the target among
its prerequisites, the transitive dependent closure is the target
alone. -/
theorem depClosure_eq_self (db : Database) (installed : List String) (g : String)
    (hd : ∀ h ∈ installed, h ≠ g → g ∉ requiresOf db h) :
    depClosure db installed g = [g] := by
  have hfix : depStep db installed [g] = [g] := by
    unfold depStep
    have hnil : installed.filter
        (fun h => decide (h ∉ [g] ∧ ∃ r ∈ requiresOf db h, r ∈ [g])) = [] := by
      rw [List.filter_eq_nil_iff]
      intro h hh
      simp only [List.mem_singleton, decide_eq_true_eq, not_and, not_exists]
      intro hne r hr
      intro hrg
      exact hd h hh hne (hrg ▸ hr)
    rw [hnil, List.append_nil]
  unfold depClosure
  exact Function.iterate_fixed hfix installed.length

/-- Counterexample to claim C7 as stated: gene `G` (install cost 15,
remove cost 10) installed then removed from a 100 EP state leaves 75 EP —
the prior balance minus the SUM 25 of both costs — not the prior balance
minus the difference (100 − (15 − 10) = 95) the claim asserts; both
operations succeed and the InstalledSet is restored. -/
theorem install_remove_roundtrip_cex :
    (installGene [geneAlpha] ⟨100, [], [], "V", 10⟩ "alpha").1 = true ∧
    (removeGene [geneAlpha] (installGene [geneAlpha] ⟨100, [], [], "V", 10⟩ "alpha").2 "alpha").1 = true ∧
    (removeGene [geneAlpha] (installGene [geneAlpha] ⟨100, [], [], "V", 10⟩ "alpha").2 "alpha").2.installed = [] ∧
    (removeGene [geneAlpha] (installGene [geneAlpha] ⟨100, [], [], "V", 10⟩ "alpha").2 "alpha").2.ep = 75 ∧
    ¬((removeGene [geneAlpha] (installGene [geneAlpha] ⟨100, [], [], "V", 10⟩ "alpha").2 "alpha").2.ep =
        100 - (geneCost [geneAlpha] "alpha" - removeCostOf [geneAlpha] "alpha")) := by
  decide

/-- Claim C7 (amended): installing a gene with no installed dependents and
immediately removing it restores the prior InstalledSet content and order
exactly and leaves the balance at the prior balance minus the sum of the
gene's install and remove costs (remove also charges; it does not
refund). -/
theorem install_then_remove_restores (db : Database) (st : EngineState) (g : String)
    (hci : (canInstallGene db st g).1 = true)
    (haff : removeCostOf db g ≤ st.ep - geneCost db g)
    (hnodep : ∀ h ∈ st.installed, g ∉ requiresOf db h) :
    (removeGene db (installGene db st g).2 g).1 = true ∧
    (removeGene db (installGene db st g).2 g).2 =
      { st with ep := st.ep - (geneCost db g + removeCostOf db g) } := by
  have hmem : g ∉ st.installed := canInstall_not_mem db st g hci
  have hins : (installGene db st g).2 =
      { st with ep := st.ep - geneCost db g, installed := st.installed ++ [g] } := by
    simp [installGene, hci]
  rw [hins]
  have hgmem : g ∈ st.installed ++ [g] := by simp
  have hcl : depClosure db (st.installed ++ [g]) g = [g] := by
    apply depClosure_eq_self
    intro h hh hne
    rcases List.mem_append.mp hh with h1 | h2
    · exact hnodep h h1
    · exact absurd (List.mem_singleton.mp h2) hne
  have hfilter : (st.installed ++ [g]).filter (fun x => decide (x ∉ [g])) = st.installed := by
    rw [List.filter_append]
    have h2 : ([g].filter (fun x => decide (x ∉ [g])) : List String) = [] := by simp
    have h1 : st.installed.filter (fun x => decide (x ∉ [g])) = st.installed := by
      rw [List.filter_eq_self]
      intro a ha
      simp only [List.mem_singleton, decide_eq_true_eq]
      intro heq
      exact hmem (heq ▸ ha)
    rw [h1, h2, List.append_nil]
  have hep : ¬ (st.ep - geneCost db g < removeCostOf db g) := by omega
  constructor
  · simp [removeGene, hgmem, hep]
  · simp only [removeGene, hgmem, not_true_eq_false, if_false, hep, if_true]
    simp [hcl, hfilter]
    constructor
    · omega
    · intro a ha heq
      exact hmem (heq ▸ ha)

/-- Witness for amended C7: from 100 EP with `alpha` installed, installing
`beta` (cost 5, requiring `alpha`) then removing it (remove cost 2)
restores `["alpha"]` and leaves 93 = 100 − (5 + 2) EP. -/
theorem install_then_remove_restores_witness :
    (removeGene sampleDb (installGene sampleDb sampleStA "beta").2 "beta").1 = true ∧
    (removeGene sampleDb (installGene sampleDb sampleStA "beta").2 "beta").2 =
      { sampleStA with ep := sampleStA.ep - (geneCost sampleDb "beta" + removeCostOf sampleDb "beta") } :=
  install_then_remove_restores sampleDb sampleStA "beta" (by decide) (by decide) (by decide)

/-- Claim C8: blueprint composition is a pure function of the
InstalledSet order, the Database and the Ledger's starter selection and
count — any two states agreeing on those produce identical blueprints, so
in particular two requests with no intervening mutation do. -/
theorem blueprint_pure_function (db : Database) (s1 s2 : EngineState)
    (h1 : s1.installed = s2.installed) (h2 : s1.starter = s2.starter)
    (h3 : s1.starterCount = s2.starterCount) :
    getVirusBlueprint db s1 = getVirusBlueprint db s2 := by
  unfold getVirusBlueprint
  rw [h1, h2, h3]

/-- Witness for C8: two fixture states differing in balance and deck but
agreeing on InstalledSet, starter and count yield the same blueprint. -/
theorem blueprint_pure_function_witness :
    getVirusBlueprint sampleDb ⟨100, ["alpha"], ["beta"], "VirionX", 10⟩ =
      getVirusBlueprint sampleDb ⟨3, ["alpha"], [], "VirionX", 10⟩ :=
  blueprint_pure_function sampleDb ⟨100, ["alpha"], ["beta"], "VirionX", 10⟩
    ⟨3, ["alpha"], [], "VirionX", 10⟩ rfl rfl rfl

/-- The deck-install loop never touches the EP balance. -/
theorem processDeck_ep (db : Database) (l : List String) (s : EngineState) :
    (processDeck db s l).ep = s.ep := by
  induction l generalizing s with
  | nil => rfl
  | cons g gs ih =>
    have h1 : processDeck db s (g :: gs) = processDeck db (initStep db s g) gs := rfl
    rw [h1, ih]
    unfold initStep
    split <;> rfl

/-- The deck-install loop only ever appends: installed genes persist. -/
theorem processDeck_mono (db : Database) (l : List String) (s : EngineState)
    (x : String) (hx : x ∈ s.installed) : x ∈ (processDeck db s l).installed := by
  induction l generalizing s with
  | nil => exact hx
  | cons g gs ih =>
    have h1 : processDeck db s (g :: gs) = processDeck db (initStep db s g) gs := rfl
    rw [h1]
    apply ih
    unfold initStep
    split
    · exact List.mem_append_left _ hx
    · exact hx

/-- Claim C9: `BuildViewModel` construction runs the deck through the
builder's legality check only — each deck gene passing `can_add_gene` at
its turn enters the InstalledSet — and the EP balance is never touched:
initialization installs deck genes for free, bypassing the install-cost
economy (`canAddGene` reads no balance at all). -/
theorem init_installs_deck_free (db : Database) (st : EngineState)
    (pre post : List String) (g : String)
    (hdeck : st.deck = pre ++ g :: post)
    (hcan : (canAddGene db (processDeck db { st with installed := [] } pre).installed g).1 = true) :
    (initViewModel db st).ep = st.ep ∧ g ∈ (initViewModel db st).installed := by
  have hmain : ∀ (s : EngineState) (l : List String), l = pre ++ g :: post →
      (canAddGene db (processDeck db s pre).installed g).1 = true →
      g ∈ (processDeck db s l).installed := by
    intro s l hl hc
    subst hl
    have hsplit : processDeck db s (pre ++ g :: post) =
        processDeck db (initStep db (processDeck db s pre) g) post := by
      unfold processDeck
      rw [List.foldl_append]
      rfl
    rw [hsplit]
    apply processDeck_mono
    simp only [initStep, hc, if_true]
    exact List.mem_append_right _ (List.mem_singleton.mpr rfl)
  constructor
  · unfold initViewModel
    rw [processDeck_ep]
  · exact hmain { st with installed := [] } st.deck hdeck hcan

/-- Witness for C9: a broke state (0 EP) with the 50-cost gene `rich` in
the deck still gets `rich` installed during construction, with the
balance untouched. -/
theorem init_installs_deck_free_witness :
    (initViewModel sampleDb poorSt).ep = poorSt.ep ∧
    "rich" ∈ (initViewModel sampleDb poorSt).installed :=
  init_installs_deck_free sampleDb poorSt [] [] "rich" (by decide) (by decide)

/-- Claim C10: starting a new game sets the balance to exactly 100 and
seeds the deck with exactly `min 10 (number of database genes)` entries,
pairwise distinct, each a database gene name — under `random.sample`'s
contract (distinct in-range positions, sample size as computed) and
distinct database gene names. -/
theorem new_game_seed (db : Database) (pick : List Nat)
    (hnodup : pick.Nodup)
    (hlt : ∀ i ∈ pick, i < db.length)
    (hlen : pick.length = min 10 db.length)
    (hnames : (geneNames db).Nodup) :
    (startNewGame db pick).ep = 100 ∧
    (startNewGame db pick).deck.length = min 10 db.length ∧
    (startNewGame db pick).deck.Nodup ∧
    ∀ n ∈ (startNewGame db pick).deck, n ∈ geneNames db := by
  have hlen' : (geneNames db).length = db.length := List.length_map db Gene.name
  refine ⟨rfl, ?_, ?_, ?_⟩
  · simp [startNewGame, hlen]
  · apply hnodup.map_on
    intro i hi j hj hij
    have hi' : i < (geneNames db).length := hlen' ▸ hlt i hi
    have hj' : j < (geneNames db).length := hlen' ▸ hlt j hj
    rw [List.getD_eq_getElem _ _ hi', List.getD_eq_getElem _ _ hj'] at hij
    have hinj := List.nodup_iff_injective_get.mp hnames
    have heq : (⟨i, hi'⟩ : Fin (geneNames db).length) = ⟨j, hj'⟩ :=
      hinj (by simpa [List.get_eq_getElem] using hij)
    exact congrArg Fin.val heq
  · intro n hn
    simp only [startNewGame, List.mem_map] at hn
    obtain ⟨i, hi, rfl⟩ := hn
    have hi' : i < (geneNames db).length := hlen' ▸ hlt i hi
    rw [List.getD_eq_getElem _ _ hi']
    exact List.getElem_mem hi'

/-- Witness for C10: the four-gene fixture database with the sample
positions `[3, 1, 0, 2]` (min 10 4 = 4 entries). -/
theorem new_game_seed_witness :
    (startNewGame sampleDb [3, 1, 0, 2]).ep = 100 ∧
    (startNewGame sampleDb [3, 1, 0, 2]).deck.length = min 10 sampleDb.length ∧
    (startNewGame sampleDb [3, 1, 0, 2]).deck.Nodup ∧
    ∀ n ∈ (startNewGame sampleDb [3, 1, 0, 2]).deck, n ∈ geneNames sampleDb :=
  new_game_seed sampleDb [3, 1, 0, 2] (by decide) (by decide) (by decide) (by decide)

end ViralSandbox
